import Mathlib

/-!
# Verification of the YakMessenger C client transport (src/c/yak.c)

Shallow embedding of the connection lifecycle and wire-framing codec of the
Yak protocol client.  Bytes are modelled as `Nat` (values 0..255 on the wire),
the C `long` as `Int` with explicit two's-complement wrap-around where the C
code can overflow, and each socket direction as an explicit stream state.
The operating system is modelled deterministically at the points the claims
require: `close(2)` on a valid descriptor succeeds, `malloc`/`strdup` succeed,
and `errno` is unset (so `get_errno` yields its default argument).
-/

/-- Linux error code EIO (the name carries a trailing underscore). -/
def EIO_ : Int := 5

/-- Linux error code EBADF. -/
def EBADF : Int := 9

/-- Linux error code ENOMEM. -/
def ENOMEM : Int := 12

/-- Linux error code EACCES. -/
def EACCES : Int := 13

/-- Linux error code EFAULT. -/
def EFAULT : Int := 14

/-- Linux error code EINVAL. -/
def EINVAL : Int := 22

/-- Linux error code EBADMSG. -/
def EBADMSG : Int := 74

/-- Linux error code EOVERFLOW. -/
def EOVERFLOW : Int := 75

/-- Linux error code EMSGSIZE. -/
def EMSGSIZE : Int := 90

/-- Linux error code ECONNRESET. -/
def ECONNRESET : Int := 104

/-- Two's-complement wrap-around of a C `long` (64-bit signed) value. -/
def wrap64 (x : Int) : Int := (x + 2 ^ 63) % 2 ^ 64 - 2 ^ 63

/-- Fuelled form of the digit-emitting loop of `print_integer`
(src/c/yak.c lines 61-67): ASCII digits of `r`, least significant first,
empty for 0.  The fuel argument only makes the recursion structural; it is
never exhausted when it starts at `r` (see `lsdDigitsF_congr`). -/
def lsdDigitsF : Nat → Nat → List Nat
  | 0, _ => []
  | _ + 1, 0 => []
  | fuel + 1, r + 1 => (48 + (r + 1) % 10) :: lsdDigitsF fuel ((r + 1) / 10)

/-- ASCII digits of `r`, least significant first, empty for 0. -/
def lsdDigits (r : Nat) : List Nat := lsdDigitsF r r

/-- Model of `print_integer` (src/c/yak.c lines 36-85): renders `val` in
decimal into a buffer of capacity `cap` and returns the written bytes, or
`none` when the buffer is too small.  The in-loop capacity check (line 62)
is subsumed by the final check (line 69): they jointly fail exactly when the
number of written characters reaches `cap`. -/
def print_integer (cap : Int) (val : Int) : Option (List Nat) :=
  if 0 ≤ val then
    if cap < 2 then none
    else
      let ds := (48 + val.toNat % 10) :: lsdDigits (val.toNat / 10)
      if cap ≤ (ds.length : Int) then none
      else some ds.reverse
  else
    if cap < 3 then none
    else
      let ds := (48 + (-val).toNat % 10) :: lsdDigits ((-val).toNat / 10)
      if cap ≤ (ds.length : Int) + 1 then none
      else some (45 :: ds.reverse)

/-- The decimal ASCII digits of `n`, most significant first: what
`print_integer` writes for a non-negative value in a large enough buffer. -/
def toDigits (n : Nat) : List Nat := ((48 + n % 10) :: lsdDigits (n / 10)).reverse

/-- The value accumulated by the header length parser over ASCII digit bytes
(`len = (c - '0') + 10*len`, src/c/yak.c line 314), without wrap-around. -/
def foldVal (v : Int) (ds : List Nat) : Int :=
  ds.foldl (fun a d => ((d : Int) - 48) + 10 * a) v

/-- Receive side of the socket: the bytes the peer will deliver, then either a
clean close (`err = false`: `recv` reports 0) or a transport error
(`err = true`: `recv` reports -1). -/
structure SockIn where
  data : List Nat
  err : Bool
deriving DecidableEq

/-- Send side of the socket: the peer accepts `cap` further bytes, then
reports either an error (`err = true`) or zero progress; `sent` accumulates
the delivered bytes. -/
structure SockOut where
  cap : Nat
  err : Bool
  sent : List Nat
deriving DecidableEq

/-- Model of `recv_data` (src/c/yak.c lines 191-208), the loop over
`recv(2)`: returns the C result (bytes placed, or -1 on a hard error), the
bytes placed, and the rest of the stream. -/
def recv_data (s : SockIn) (n : Nat) : Int × List Nat × SockIn :=
  if n ≤ s.data.length then ((n : Int), s.data.take n, ⟨s.data.drop n, s.err⟩)
  else if s.err then (-1, s.data, ⟨[], true⟩)
  else ((s.data.length : Int), s.data, ⟨[], false⟩)

/-- Model of `send_data` (src/c/yak.c lines 210-227), the loop over
`send(2)`: returns the C result and the updated send side. -/
def send_data (s : SockOut) (bs : List Nat) : Int × SockOut :=
  if bs.length ≤ s.cap then ((bs.length : Int), ⟨s.cap - bs.length, s.err, s.sent ++ bs⟩)
  else if s.err then (-1, ⟨0, true, s.sent ++ bs.take s.cap⟩)
  else ((s.cap : Int), ⟨0, false, s.sent ++ bs.take s.cap⟩)

/-- Model of `message_info` (src/c/yak.c lines 13-16). -/
structure message_info where
  len : Int
  type : Nat
deriving DecidableEq

/-- The header digit loop of `recv_message_info` (src/c/yak.c lines 311-329):
`len` is the accumulated length, `c` the byte under examination, `data`/`err`
the remaining receive stream.  Returns the status, the parsed length, and the
remaining stream.  The accumulation wraps as 64-bit signed C `long`
arithmetic. -/
def parse_len_loop (len : Int) (c : Nat) (data : List Nat) (err : Bool) :
    Int × Int × List Nat × Bool :=
  if c = 10 then (0, len, data, err)
  else if 48 ≤ c ∧ c ≤ 57 then
    let l := wrap64 (((c : Int) - 48) + 10 * len)
    if l < len then (EOVERFLOW, 0, data, err)
    else
      match data with
      | [] => (if err then EIO_ else EBADMSG, 0, [], err)
      | b :: tl => parse_len_loop l b tl err
  else (EBADMSG, 0, data, err)

/-- Model of `recv_message_info` (src/c/yak.c lines 286-333): reads the
4-byte fixed part of the header, validates the `':'` and the first digit,
then runs the digit loop.  On error the returned header is the initialized
`{len := 0, type := 0}`. -/
def recv_message_info (s : SockIn) : Int × message_info × SockIn :=
  let r := recv_data s 4
  if r.1 ≠ 4 then (if r.1 < 0 then EIO_ else EBADMSG, ⟨0, 0⟩, r.2.2)
  else
    let buf := r.2.1
    if buf.getD 1 0 ≠ 58 then (EBADMSG, ⟨0, 0⟩, r.2.2)
    else if buf.getD 2 0 < 48 ∨ 57 < buf.getD 2 0 then (EBADMSG, ⟨0, 0⟩, r.2.2)
    else
      let p := parse_len_loop ((buf.getD 2 0 : Int) - 48) (buf.getD 3 0) r.2.2.data r.2.2.err
      if p.1 = 0 then (0, ⟨p.2.1, buf.getD 0 0⟩, ⟨p.2.2.1, p.2.2.2⟩)
      else (p.1, ⟨0, 0⟩, ⟨p.2.2.1, p.2.2.2⟩)

/-- Model of `recv_message_data` (src/c/yak.c lines 335-357): the payload
bytes (when `len > 0`) followed by the trailing newline.  Returns the status,
the payload bytes read, and the remaining stream. -/
def recv_message_data (s : SockIn) (len : Int) : Int × List Nat × SockIn :=
  if 0 < len then
    let r := recv_data s len.toNat
    if r.1 ≠ len then (if r.1 < 0 then EIO_ else EBADMSG, [], r.2.2)
    else
      let q := recv_data r.2.2 1
      if q.1 ≠ 1 then (if q.1 < 0 then EIO_ else EBADMSG, [], q.2.2)
      else if q.2.1.getD 0 0 ≠ 10 then (EBADMSG, [], q.2.2)
      else (0, r.2.1, q.2.2)
  else
    let q := recv_data s 1
    if q.1 ≠ 1 then (if q.1 < 0 then EIO_ else EBADMSG, [], q.2.2)
    else if q.2.1.getD 0 0 ≠ 10 then (EBADMSG, [], q.2.2)
    else (0, [], q.2.2)

/-- Model of `yak_connection` (src/c/yak.h lines 13-17); a NULL pointer to it
is `Option.none` at the use sites, `peer` holds the strdup'd host bytes. -/
structure yak_connection where
  peer : Option (List Nat)
  sock : Int
  port : Int
deriving DecidableEq

/-- Model of `yak_is_open` (src/c/yak.c lines 87-90). -/
def yak_is_open : Option yak_connection → Bool
  | none => false
  | some c => decide (0 ≤ c.sock)

/-- Model of `yak_init` (src/c/yak.c lines 92-99) applied to a non-NULL
connection: all members zeroed, then `sock` set to -1. -/
def yak_init : yak_connection := ⟨none, -1, 0⟩

/-- Model of `yak_close` (src/c/yak.c lines 101-120).  `close(2)` on a valid
descriptor is modelled as succeeding, so the status is always 0; the
connection is reset to the initializer state. -/
def yak_close : Option yak_connection → Int × Option yak_connection
  | none => (0, none)
  | some _ => (0, some yak_init)

/-- Model of `yak_send_message` (src/c/yak.c lines 229-284).  `data` is
`none` for a NULL pointer; the payload bytes put on the wire are the first
`len` bytes of the buffer.  `errno` is modelled as unset, so `get_errno`
yields its default argument. -/
def yak_send_message : Option yak_connection → Nat → Option (List Nat) → Int → SockOut →
    Int × Option yak_connection × SockOut
  | none, _, _, _, out => (EFAULT, none, out)
  | some c, ty, data, len, out =>
    if c.sock < 0 then (EBADF, some c, out)
    else if len < 0 then (EINVAL, (yak_close (some c)).2, out)
    else if data.isNone ∧ 0 < len then (EFAULT, (yak_close (some c)).2, out)
    else
      let ds := (print_integer 30 len).getD []
      if (print_integer 30 len).isNone ∨ 32 ≤ (ds.length : Int) + 3 then
        (EOVERFLOW, (yak_close (some c)).2, out)
      else
          let fin : SockOut → Int × Option yak_connection × SockOut := fun o =>
            let q := send_data o [10]
            if q.1 ≠ 1 then
              (if q.1 < 0 then EIO_ else ECONNRESET, (yak_close (some c)).2, q.2)
            else (0, some c, q.2)
          let r := send_data out (ty :: 58 :: (ds ++ [10]))
          if r.1 ≠ (ds.length : Int) + 3 then
            (if r.1 < 0 then EIO_ else ECONNRESET, (yak_close (some c)).2, r.2)
          else if 0 < len then
            let q := send_data r.2 ((data.getD []).take len.toNat)
            if q.1 ≠ len then
              (if q.1 < 0 then EIO_ else ECONNRESET, (yak_close (some c)).2, q.2)
            else fin q.2
          else fin r.2

/-- Model of `yak_recv_message_in_buffer` (src/c/yak.c lines 359-419).
`dataPtr` is whether the `data` argument is non-NULL; the `type` and `len`
output pointers are modelled as valid, with their stored values returned.
Result: (status, connection, stored type, stored len, buffer contents,
remaining stream). -/
def yak_recv_message_in_buffer : Option yak_connection → Bool → Int → SockIn →
    Int × Option yak_connection × Nat × Int × List Nat × SockIn
  | none, _, _, s => (EFAULT, none, 0, 0, [], s)
  | some c, dataPtr, maxlen, s =>
    if c.sock < 0 then (EBADF, some c, 0, 0, [], s)
    else if maxlen < 0 then (EINVAL, (yak_close (some c)).2, 0, 0, [], s)
    else if dataPtr = false ∧ 0 < maxlen then (EFAULT, (yak_close (some c)).2, 0, 0, [], s)
    else
      let r := recv_message_info s
      if r.1 ≠ 0 then (r.1, (yak_close (some c)).2, 0, 0, [], r.2.2)
      else if maxlen < r.2.1.len then (EMSGSIZE, (yak_close (some c)).2, 0, 0, [], r.2.2)
      else
        let q := recv_message_data r.2.2 r.2.1.len
        if q.1 ≠ 0 then (q.1, (yak_close (some c)).2, 0, 0, [], q.2.2)
        else (0, some c, r.2.1.type, r.2.1.len, q.2.1, q.2.2)

/-- Model of `yak_recv_message` (src/c/yak.c lines 422-481).  `dataPtr` is
whether the `data` output pointer is non-NULL (NULL is rejected together with
a NULL connection, without closing); `malloc` is modelled as succeeding.
Result: (status, connection, stored type, allocated payload, stored len,
remaining stream). -/
def yak_recv_message : Option yak_connection → Bool → SockIn →
    Int × Option yak_connection × Nat × List Nat × Int × SockIn
  | none, _, s => (EFAULT, none, 0, [], 0, s)
  | some c, false, s => (EFAULT, some c, 0, [], 0, s)
  | some c, true, s =>
    if c.sock < 0 then (EBADF, some c, 0, [], 0, s)
    else
      let r := recv_message_info s
      if r.1 ≠ 0 then (r.1, (yak_close (some c)).2, 0, [], 0, r.2.2)
      else if 0 < r.2.1.len then
        let q := recv_message_data r.2.2 r.2.1.len
        if q.1 ≠ 0 then (q.1, (yak_close (some c)).2, 0, [], 0, q.2.2)
        else (0, some c, r.2.1.type, q.2.1, r.2.1.len, q.2.2)
      else (0, some c, r.2.1.type, [], r.2.1.len, r.2.2)

/-- One `getaddrinfo` candidate: the `socket(2)` result for it (`none` models
-1, failure) and whether `connect(2)` on that socket succeeds. -/
structure CandAddr where
  sockFd : Option Nat
  connectOk : Bool
deriving DecidableEq

/-- The network environment: name resolution behaving as `getaddrinfo`
(`none` models resolution failure). -/
structure NetEnv where
  resolve : List Nat → Int → Option (List CandAddr)

/-- Model of `listaddrinfo` (src/c/yak.c lines 122-149).  Besides the result
list it reports whether `getaddrinfo` was invoked. -/
def listaddrinfo (env : NetEnv) : Option (List Nat) → Int → Option (List CandAddr) × Bool
  | none, _ => (none, false)
  | some h, port =>
    if port < 0 ∨ 65535 < port then (none, false)
    else if (print_integer 8 port).isNone then (none, false)
    else (env.resolve h port, true)

/-- The candidate loop of `yak_connect` (src/c/yak.c lines 164-173): the
first socket that connects, and the number of `socket(2)` calls made. -/
def connect_loop : List CandAddr → Option Nat × Nat
  | [] => (none, 0)
  | a :: tl =>
    match a.sockFd with
    | none => let r := connect_loop tl; (r.1, r.2 + 1)
    | some fd =>
      if a.connectOk then (some fd, 1)
      else let r := connect_loop tl; (r.1, r.2 + 1)

/-- Model of `yak_connect` (src/c/yak.c lines 151-188) over a network
environment; `strdup` is modelled as succeeding.  A NULL `host` defaults to
the bytes of "127.0.0.1".  Result: (status, connection, whether name
resolution was performed, number of `socket(2)` calls). -/
def yak_connect (env : NetEnv) : Option yak_connection → Option (List Nat) → Int →
    Int × Option yak_connection × Bool × Nat
  | none, _, _ => (EFAULT, none, false, 0)
  | some _, host, port =>
    let h := host.getD [49, 50, 55, 46, 48, 46, 48, 46, 49]
    let l := listaddrinfo env (some h) port
    let r := connect_loop (l.1.getD [])
    match r.1 with
    | none => (EACCES, some yak_init, l.2, r.2)
    | some fd => (0, some ⟨some h, (fd : Int), port⟩, l.2, r.2)

/-- A network environment on which every name resolution fails, as
`getaddrinfo` does on the empty host string. -/
def envNone : NetEnv := ⟨fun _ _ => none⟩

/-- The exact byte sequence `yak_send_message` puts on the wire for type `t`
and payload `p`: type, ':', decimal length, newline, payload, newline. -/
def wire (t : Nat) (p : List Nat) : List Nat :=
  t :: 58 :: (toDigits p.length ++ 10 :: (p ++ [10]))

/-! ## Digit rendering and parsing lemmas -/

theorem lsdDigitsF_congr :
    ∀ (r f₁ f₂ : Nat), r ≤ f₁ → r ≤ f₂ → lsdDigitsF f₁ r = lsdDigitsF f₂ r := by
  intro r
  induction r using Nat.strong_induction_on with
  | _ r ih =>
    intro f₁ f₂ h₁ h₂
    match r, f₁, f₂, h₁, h₂ with
    | 0, f₁, f₂, _, _ => cases f₁ <;> cases f₂ <;> rfl
    | s + 1, g₁ + 1, g₂ + 1, h₁, h₂ =>
      have hq : (s + 1) / 10 < s + 1 := Nat.div_lt_self (Nat.succ_pos s) (by norm_num)
      have e₁ : lsdDigitsF g₁ ((s + 1) / 10) = lsdDigitsF ((s + 1) / 10) ((s + 1) / 10) :=
        ih _ hq _ _ (by omega) le_rfl
      have e₂ : lsdDigitsF g₂ ((s + 1) / 10) = lsdDigitsF ((s + 1) / 10) ((s + 1) / 10) :=
        ih _ hq _ _ (by omega) le_rfl
      show (48 + (s + 1) % 10) :: lsdDigitsF g₁ ((s + 1) / 10)
          = (48 + (s + 1) % 10) :: lsdDigitsF g₂ ((s + 1) / 10)
      rw [e₁, e₂]

theorem lsdDigits_zero : lsdDigits 0 = [] := rfl

theorem lsdDigits_succ (s : Nat) :
    lsdDigits (s + 1) = (48 + (s + 1) % 10) :: lsdDigits ((s + 1) / 10) := by
  have hq : (s + 1) / 10 < s + 1 := Nat.div_lt_self (Nat.succ_pos s) (by norm_num)
  show lsdDigitsF (s + 1) (s + 1) = (48 + (s + 1) % 10) :: lsdDigits ((s + 1) / 10)
  show (48 + (s + 1) % 10) :: lsdDigitsF s ((s + 1) / 10) = _
  rw [lsdDigitsF_congr ((s + 1) / 10) s ((s + 1) / 10) (by omega) le_rfl]
  rfl

theorem lsdDigits_eq_nil_iff (m : Nat) : lsdDigits m = [] ↔ m = 0 := by
  cases m with
  | zero => simp [lsdDigits_zero]
  | succ s => simp [lsdDigits_succ]

theorem lsdDigits_mem :
    ∀ (m : Nat), ∀ d ∈ lsdDigits m, 48 ≤ d ∧ d ≤ 57 := by
  intro m
  induction m using Nat.strong_induction_on with
  | _ m ih =>
    cases m with
    | zero => simp [lsdDigits_zero]
    | succ s =>
      rw [lsdDigits_succ]
      intro d hd
      rcases List.mem_cons.mp hd with h | h
      · subst h
        constructor
        · omega
        · have := Nat.mod_lt (s + 1) (show 0 < 10 by norm_num)
          omega
      · exact ih ((s + 1) / 10) (Nat.div_lt_self (Nat.succ_pos s) (by norm_num)) d h

theorem lsdDigits_length_le :
    ∀ (k m : Nat), m < 10 ^ k → (lsdDigits m).length ≤ k := by
  intro k
  induction k with
  | zero =>
    intro m hm
    interval_cases m
    simp [lsdDigits_zero]
  | succ k ih =>
    intro m hm
    cases m with
    | zero => simp [lsdDigits_zero]
    | succ s =>
      rw [lsdDigits_succ]
      have hq : (s + 1) / 10 < 10 ^ k := by
        have : s + 1 < 10 * 10 ^ k := by
          rw [pow_succ] at hm; omega
        exact Nat.div_lt_of_lt_mul (by omega)
      simpa using ih ((s + 1) / 10) hq

theorem foldVal_nil (v : Int) : foldVal v [] = v := rfl

theorem foldVal_cons (v : Int) (d : Nat) (ds : List Nat) :
    foldVal v (d :: ds) = foldVal (((d : Int) - 48) + 10 * v) ds := rfl

theorem foldVal_append (v : Int) (l₁ l₂ : List Nat) :
    foldVal v (l₁ ++ l₂) = foldVal (foldVal v l₁) l₂ := by
  simp [foldVal, List.foldl_append]

theorem foldVal_concat (v : Int) (l : List Nat) (x : Nat) :
    foldVal v (l ++ [x]) = ((x : Int) - 48) + 10 * foldVal v l := by
  rw [foldVal_append, foldVal_cons, foldVal_nil]

theorem foldVal_le (ds : List Nat) :
    ∀ v : Int, 0 ≤ v → (∀ d ∈ ds, 48 ≤ d) → v ≤ foldVal v ds := by
  induction ds with
  | nil => intro v _ _; simp [foldVal_nil]
  | cons d tl ih =>
    intro v hv hds
    rw [foldVal_cons]
    have hd : 48 ≤ d := hds d (List.mem_cons_self d tl)
    have h1 : v ≤ ((d : Int) - 48) + 10 * v := by
      have : (48 : Int) ≤ (d : Int) := by exact_mod_cast hd
      omega
    have h2 : ((d : Int) - 48) + 10 * v ≤ foldVal (((d : Int) - 48) + 10 * v) tl := by
      apply ih
      · have : (48 : Int) ≤ (d : Int) := by exact_mod_cast hd
        omega
      · intro x hx; exact hds x (List.mem_cons_of_mem d hx)
    omega

theorem foldVal_nonneg (ds : List Nat) (v : Int) (hv : 0 ≤ v)
    (hds : ∀ d ∈ ds, 48 ≤ d) : 0 ≤ foldVal v ds :=
  le_trans hv (foldVal_le ds v hv hds)

theorem foldVal_lsd_reverse :
    ∀ (m : Nat) (v : Int),
      foldVal v (lsdDigits m).reverse = v * 10 ^ (lsdDigits m).length + m := by
  intro m
  induction m using Nat.strong_induction_on with
  | _ m ih =>
    intro v
    cases m with
    | zero => simp [lsdDigits_zero, foldVal_nil]
    | succ s =>
      rw [lsdDigits_succ, List.reverse_cons, foldVal_concat,
        ih ((s + 1) / 10) (Nat.div_lt_self (Nat.succ_pos s) (by norm_num)) v]
      have hmod : ((48 + (s + 1) % 10 : Nat) : Int) - 48 = ((s + 1) % 10 : Nat) := by
        push_cast; omega
      have hdm : ((s + 1 : Nat) : Int)
          = 10 * (((s + 1) / 10 : Nat) : Int) + (((s + 1) % 10 : Nat) : Int) := by
        have := Nat.div_add_mod (s + 1) 10
        push_cast
        omega
      rw [hmod]
      simp only [List.length_cons, List.length_reverse]
      rw [pow_succ]
      push_cast
      push_cast at hdm
      nlinarith [hdm]

theorem toDigits_eq_reverse_append (n : Nat) :
    toDigits n = (lsdDigits (n / 10)).reverse ++ [48 + n % 10] := by
  simp [toDigits, List.reverse_cons]

theorem foldVal_toDigits (n : Nat) : foldVal 0 (toDigits n) = (n : Int) := by
  rw [toDigits_eq_reverse_append, foldVal_concat, foldVal_lsd_reverse]
  have hmod : ((48 + n % 10 : Nat) : Int) - 48 = ((n % 10 : Nat) : Int) := by
    push_cast; omega
  have hdm : ((n : Nat) : Int) = 10 * ((n / 10 : Nat) : Int) + ((n % 10 : Nat) : Int) := by
    have := Nat.div_add_mod n 10
    push_cast
    omega
  rw [hmod]
  omega

theorem toDigits_mem (n : Nat) : ∀ d ∈ toDigits n, 48 ≤ d ∧ d ≤ 57 := by
  intro d hd
  rw [toDigits, List.mem_reverse] at hd
  rcases List.mem_cons.mp hd with h | h
  · subst h
    have := Nat.mod_lt n (show 0 < 10 by norm_num)
    omega
  · exact lsdDigits_mem (n / 10) d h

theorem toDigits_length (n : Nat) :
    (toDigits n).length = (lsdDigits (n / 10)).length + 1 := by
  simp [toDigits]

theorem toDigits_ne_nil (n : Nat) : toDigits n ≠ [] := by
  intro h
  have := toDigits_length n
  rw [h] at this
  simp at this

theorem toDigits_length_le (n : Nat) (h : (n : Int) < 2 ^ 63) :
    (toDigits n).length ≤ 19 := by
  rw [toDigits_length]
  have hn : n < 10 ^ 19 := by
    have h2 : ((2 : Int) ^ 63) < ((10 : Nat) ^ 19 : Nat) := by norm_num
    have : (n : Int) < ((10 : Nat) ^ 19 : Nat) := lt_trans h h2
    exact_mod_cast this
  have : n / 10 < 10 ^ 18 := by
    have h10 : n < 10 * 10 ^ 18 := by norm_num at hn ⊢; omega
    exact Nat.div_lt_of_lt_mul h10
  have := lsdDigits_length_le 18 (n / 10) this
  omega

theorem wrap64_eq (x : Int) (h1 : -(2 ^ 63) ≤ x) (h2 : x < 2 ^ 63) :
    wrap64 x = x := by
  unfold wrap64
  have h0 : (0 : Int) ≤ x + 2 ^ 63 := by omega
  have h3 : x + 2 ^ 63 < 2 ^ 64 := by norm_num at h2 ⊢; omega
  rw [Int.emod_eq_of_lt h0 h3]
  omega

theorem print_integer_toDigits (n : Nat) (hn : (n : Int) < 2 ^ 63) :
    print_integer 30 (n : Int) = some (toDigits n) := by
  have hlen : (toDigits n).length ≤ 19 := toDigits_length_le n hn
  rw [toDigits_length] at hlen
  unfold print_integer
  rw [if_pos (by positivity)]
  rw [if_neg (by norm_num)]
  simp only [Int.toNat_natCast]
  rw [if_neg (by simp only [List.length_cons]; push_cast; omega)]
  rfl

/-! ## Stream and header-parser lemmas -/

theorem recv_data_four (a b c d : Nat) (l : List Nat) (err : Bool) :
    recv_data ⟨a :: b :: c :: d :: l, err⟩ 4 = (4, [a, b, c, d], ⟨l, err⟩) := by
  unfold recv_data
  rw [if_pos (by simp)]
  rfl

theorem recv_data_exact (p extra : List Nat) (err : Bool) :
    recv_data ⟨p ++ extra, err⟩ p.length = ((p.length : Int), p, ⟨extra, err⟩) := by
  unfold recv_data
  rw [if_pos (by simp)]
  rw [List.take_left, List.drop_left]

theorem recv_data_short (p : List Nat) (n : Nat) (hn : p.length < n) :
    recv_data ⟨p, false⟩ n = ((p.length : Int), p, ⟨[], false⟩) := by
  unfold recv_data
  rw [if_neg (show ¬n ≤ (SockIn.mk p false).data.length from by
    show ¬n ≤ p.length
    omega)]
  rfl

/-- The digit loop consumes a run of digits up to the terminating newline and
returns their accumulated value, provided that value stays below `2 ^ 63`
(so that no accumulation step wraps). -/
theorem parse_ok (ds : List Nat) :
    ∀ (c : Nat) (rest : List Nat) (err : Bool) (v : Int),
      48 ≤ c → c ≤ 57 → (∀ d ∈ ds, 48 ≤ d ∧ d ≤ 57) → 0 ≤ v →
      foldVal v (c :: ds) < 2 ^ 63 →
      parse_len_loop v c (ds ++ 10 :: rest) err = (0, foldVal v (c :: ds), rest, err) := by
  induction ds with
  | nil =>
    intro c rest err v hc1 hc2 _ hv hbound
    rw [foldVal_cons, foldVal_nil] at hbound ⊢
    have hc48 : (48 : Int) ≤ (c : Int) := by exact_mod_cast hc1
    unfold parse_len_loop
    rw [if_neg (by omega)]
    rw [if_pos ⟨hc1, hc2⟩]
    have hw : wrap64 (((c : Int) - 48) + 10 * v) = ((c : Int) - 48) + 10 * v := by
      apply wrap64_eq
      · omega
      · omega
    simp only [hw]
    rw [if_neg (by omega)]
    simp only [List.nil_append]
    unfold parse_len_loop
    rw [if_pos rfl]
  | cons e es ih =>
    intro c rest err v hc1 hc2 hds hv hbound
    have hc48 : (48 : Int) ≤ (c : Int) := by exact_mod_cast hc1
    have he : 48 ≤ e ∧ e ≤ 57 := hds e (List.mem_cons_self e es)
    have hes : ∀ d ∈ es, 48 ≤ d ∧ d ≤ 57 := fun d hd => hds d (List.mem_cons_of_mem e hd)
    rw [foldVal_cons] at hbound
    have hv2 : 0 ≤ ((c : Int) - 48) + 10 * v := by omega
    have hmono : ((c : Int) - 48) + 10 * v ≤ foldVal (((c : Int) - 48) + 10 * v) (e :: es) :=
      foldVal_le (e :: es) _ hv2 (fun d hd => ((List.mem_cons.mp hd).elim
        (fun h => h ▸ he.1) (fun h => (hes d h).1)))
    unfold parse_len_loop
    rw [if_neg (by omega)]
    rw [if_pos ⟨hc1, hc2⟩]
    have hw : wrap64 (((c : Int) - 48) + 10 * v) = ((c : Int) - 48) + 10 * v := by
      apply wrap64_eq
      · omega
      · omega
    simp only [hw]
    rw [if_neg (by omega)]
    simp only [List.cons_append]
    rw [ih e rest err (((c : Int) - 48) + 10 * v) he.1 he.2 hes hv2 (by omega)]
    simp [foldVal_cons]

/-- `recv_message_info` on a header whose length field is any non-empty run
of ASCII digits accumulating to a value below `2 ^ 63`: it succeeds with
exactly that value and consumes exactly the header bytes. -/
theorem recv_message_info_digits (t d : Nat) (ds rest : List Nat) (err : Bool)
    (hd1 : 48 ≤ d) (hd2 : d ≤ 57) (hds : ∀ x ∈ ds, 48 ≤ x ∧ x ≤ 57)
    (hb : foldVal 0 (d :: ds) < 2 ^ 63) :
    recv_message_info ⟨t :: 58 :: d :: (ds ++ 10 :: rest), err⟩ =
      (0, ⟨foldVal 0 (d :: ds), t⟩, ⟨rest, err⟩) := by
  cases ds with
  | nil =>
    show recv_message_info ⟨t :: 58 :: d :: 10 :: rest, err⟩ = _
    unfold recv_message_info
    rw [recv_data_four]
    rw [if_neg (show ¬((4 : Int) ≠ 4) by norm_num)]
    rw [if_neg (show ¬(([t, 58, d, 10] : List Nat).getD 1 0 ≠ 58) from fun h => h rfl)]
    rw [if_neg (show ¬(([t, 58, d, 10] : List Nat).getD 2 0 < 48 ∨
        57 < ([t, 58, d, 10] : List Nat).getD 2 0) by
      show ¬(d < 48 ∨ 57 < d)
      omega)]
    have hp : parse_len_loop ((([t, 58, d, 10] : List Nat).getD 2 0 : Int) - 48)
        (([t, 58, d, 10] : List Nat).getD 3 0)
        (SockIn.mk rest err).data (SockIn.mk rest err).err = (0, (d : Int) - 48, rest, err) := by
      show parse_len_loop ((d : Int) - 48) 10 rest err = _
      unfold parse_len_loop
      rw [if_pos rfl]
    simp only [hp]
    simp [foldVal_cons, foldVal_nil]
  | cons e es =>
    show recv_message_info ⟨t :: 58 :: d :: e :: (es ++ 10 :: rest), err⟩ = _
    unfold recv_message_info
    rw [recv_data_four]
    rw [if_neg (show ¬((4 : Int) ≠ 4) by norm_num)]
    rw [if_neg (show ¬(([t, 58, d, e] : List Nat).getD 1 0 ≠ 58) from fun h => h rfl)]
    rw [if_neg (show ¬(([t, 58, d, e] : List Nat).getD 2 0 < 48 ∨
        57 < ([t, 58, d, e] : List Nat).getD 2 0) by
      show ¬(d < 48 ∨ 57 < d)
      omega)]
    have he : 48 ≤ e ∧ e ≤ 57 := hds e (List.mem_cons_self e es)
    have hes : ∀ x ∈ es, 48 ≤ x ∧ x ≤ 57 := fun x hx => hds x (List.mem_cons_of_mem e hx)
    have hd48 : (48 : Int) ≤ (d : Int) := by exact_mod_cast hd1
    have hfold : foldVal 0 (d :: e :: es) = foldVal ((d : Int) - 48) (e :: es) := by
      rw [foldVal_cons]
      norm_num
    rw [hfold] at hb
    have hp : parse_len_loop ((([t, 58, d, e] : List Nat).getD 2 0 : Int) - 48)
        (([t, 58, d, e] : List Nat).getD 3 0)
        (SockIn.mk (es ++ 10 :: rest) err).data (SockIn.mk (es ++ 10 :: rest) err).err =
        (0, foldVal ((d : Int) - 48) (e :: es), rest, err) := by
      show parse_len_loop ((d : Int) - 48) e (es ++ 10 :: rest) err = _
      exact parse_ok es e rest err ((d : Int) - 48) he.1 he.2 hes (by omega) hb
    simp only [hp]
    rw [hfold]
    simp

/-- `recv_message_info` on the canonical header for length `n`. -/
theorem recv_message_info_wire (t n : Nat) (rest : List Nat) (err : Bool)
    (hn : (n : Int) < 2 ^ 63) :
    recv_message_info ⟨t :: 58 :: (toDigits n ++ 10 :: rest), err⟩ =
      (0, ⟨(n : Int), t⟩, ⟨rest, err⟩) := by
  obtain ⟨d, ds, hcons⟩ := List.exists_cons_of_ne_nil (toDigits_ne_nil n)
  have hmem := toDigits_mem n
  rw [hcons] at hmem
  have hd : 48 ≤ d ∧ d ≤ 57 := hmem d (List.mem_cons_self d ds)
  have hds : ∀ x ∈ ds, 48 ≤ x ∧ x ≤ 57 := fun x hx => hmem x (List.mem_cons_of_mem d hx)
  have hval : foldVal 0 (d :: ds) = (n : Int) := by
    rw [← hcons]; exact foldVal_toDigits n
  rw [hcons]
  simp only [List.cons_append]
  rw [recv_message_info_digits t d ds rest err hd.1 hd.2 hds (by rw [hval]; exact hn)]
  rw [hval]

/-- `recv_message_data` on a stream beginning with exactly the payload and
its trailing newline. -/
theorem recv_message_data_exact (p extra : List Nat) (err : Bool) :
    recv_message_data ⟨p ++ 10 :: extra, err⟩ (p.length : Int) = (0, p, ⟨extra, err⟩) := by
  cases hp : p with
  | nil =>
    show recv_message_data ⟨10 :: extra, err⟩ ((0 : Nat) : Int) = (0, [], ⟨extra, err⟩)
    unfold recv_message_data
    rw [if_neg (by norm_num)]
    have h1 : recv_data ⟨10 :: extra, err⟩ 1 = (1, [10], ⟨extra, err⟩) := by
      unfold recv_data
      rw [if_pos (by simp)]
      rfl
    simp only [h1]
    norm_num
  | cons a l =>
    rw [← hp]
    have hpos : 0 < (p.length : Int) := by
      rw [hp]; simp
    unfold recv_message_data
    rw [if_pos hpos]
    have htn : ((p.length : Int)).toNat = p.length := Int.toNat_natCast p.length
    rw [htn]
    have h1 : recv_data ⟨p ++ 10 :: extra, err⟩ p.length =
        ((p.length : Int), p, ⟨10 :: extra, err⟩) := recv_data_exact p (10 :: extra) err
    simp only [h1]
    rw [if_neg (by norm_num)]
    have h2 : recv_data ⟨10 :: extra, err⟩ 1 = (1, [10], ⟨extra, err⟩) := by
      unfold recv_data
      rw [if_pos (by simp)]
      rfl
    simp only [h2]
    norm_num

theorem send_wire (t : Nat) (p : List Nat) (c : yak_connection) (out : SockOut)
    (hs : 0 ≤ c.sock) (hlen : (p.length : Int) < 2 ^ 63)
    (hcap : (wire t p).length ≤ out.cap) :
    yak_send_message (some c) t (some p) (p.length : Int) out =
      (0, some c, ⟨out.cap - (wire t p).length, out.err, out.sent ++ wire t p⟩) := by
  obtain ⟨cap, oerr, sent⟩ := out
  have hD : (toDigits p.length).length ≤ 19 := toDigits_length_le p.length hlen
  have hwl : (wire t p).length = (toDigits p.length).length + p.length + 4 := by
    simp [wire]
    omega
  rw [hwl] at hcap
  simp only [SockOut.mk.injEq] at hcap ⊢
  simp only [yak_send_message]
  rw [if_neg (by omega)]
  rw [if_neg (by push_neg; exact Int.natCast_nonneg p.length)]
  rw [if_neg (by simp)]
  rw [print_integer_toDigits p.length hlen]
  simp only [Option.isNone_some, Option.getD_some, Bool.false_eq_true, false_or]
  rw [if_neg (by omega)]
  have hsd1 : send_data ⟨cap, oerr, sent⟩ (t :: 58 :: (toDigits p.length ++ [10])) =
      (((toDigits p.length).length : Int) + 3,
        ⟨cap - ((toDigits p.length).length + 3), oerr,
          sent ++ (t :: 58 :: (toDigits p.length ++ [10]))⟩) := by
    unfold send_data
    rw [if_pos (by simp; omega)]
    simp
    ring
  simp only [hsd1]
  rw [if_neg (by norm_num)]
  by_cases hp : 0 < (p.length : Int)
  · rw [if_pos hp]
    have htn : ((p.length : Int)).toNat = p.length := Int.toNat_natCast p.length
    have hsd2 : send_data ⟨cap - ((toDigits p.length).length + 3), oerr,
        sent ++ (t :: 58 :: (toDigits p.length ++ [10]))⟩
        (List.take ((p.length : Int)).toNat p) =
        ((p.length : Int),
          ⟨cap - ((toDigits p.length).length + 3) - p.length, oerr,
            (sent ++ (t :: 58 :: (toDigits p.length ++ [10]))) ++ p⟩) := by
      rw [htn]
      simp only [List.take_length]
      unfold send_data
      rw [if_pos (by simp; omega)]
    simp only [hsd2]
    rw [if_neg (by norm_num)]
    have hsd3 : send_data ⟨cap - ((toDigits p.length).length + 3) - p.length, oerr,
        (sent ++ (t :: 58 :: (toDigits p.length ++ [10]))) ++ p⟩ [10] =
        (1, ⟨cap - ((toDigits p.length).length + 3) - p.length - 1, oerr,
          ((sent ++ (t :: 58 :: (toDigits p.length ++ [10]))) ++ p) ++ [10]⟩) := by
      unfold send_data
      rw [if_pos (by simp; omega)]
      rfl
    simp only [hsd3]
    rw [if_neg (by norm_num)]
    simp only [Prod.mk.injEq, SockOut.mk.injEq]
    refine ⟨trivial, trivial, by rw [hwl]; omega, trivial, by simp [wire]⟩
  · rw [if_neg hp]
    have hp0 : p.length = 0 := by omega
    have hpnil : p = [] := List.length_eq_zero.mp hp0
    subst hpnil
    simp only [List.length_nil] at hcap hwl ⊢
    have hsd3 : send_data ⟨cap - ((toDigits 0).length + 3), oerr,
        sent ++ (t :: 58 :: (toDigits 0 ++ [10]))⟩ [10] =
        (1, ⟨cap - ((toDigits 0).length + 3) - 1, oerr,
          (sent ++ (t :: 58 :: (toDigits 0 ++ [10]))) ++ [10]⟩) := by
      unfold send_data
      rw [if_pos (by simp; omega)]
      rfl
    simp only [hsd3]
    rw [if_neg (by norm_num)]
    simp only [Prod.mk.injEq, SockOut.mk.injEq]
    refine ⟨trivial, trivial, by rw [hwl]; omega, trivial, by simp [wire]⟩

/-! ## Claim theorems -/

/-- C9: `yak_close` is idempotent and total over connection states: it
returns 0 on open, already-closed and NULL connections alike, a second close
returns 0 and leaves the state unchanged, afterwards `yak_is_open` reports
`false`, and any non-NULL connection is left in the fully-closed state
(`sock = -1`, `peer = none`, `port = 0`, the initializer state). -/
theorem C9_close_idempotent (oc : Option yak_connection) :
    (yak_close oc).1 = 0 ∧
    (yak_close oc).2 = oc.map (fun _ => yak_init) ∧
    yak_is_open (yak_close oc).2 = false ∧
    (yak_close (yak_close oc).2).1 = 0 ∧
    (yak_close (yak_close oc).2).2 = (yak_close oc).2 ∧
    yak_init.sock = -1 ∧ yak_init.peer = none ∧ yak_init.port = 0 := by
  cases oc <;> simp [yak_close, yak_is_open, yak_init]

/-- C2: evaluation at the failing input.  `yak_recv_message` called on an
open connection (sock 3) with a NULL `data` out-pointer returns the nonzero
error EFAULT yet leaves the connection open (`yak_is_open` still `true`),
contradicting the claim (and the yak.h note) that every send/receive error
closes the connection. -/
theorem C2_recv_message_null_data_eval :
    yak_recv_message (some ⟨none, 3, 0⟩) false ⟨[], false⟩ =
      (EFAULT, some ⟨none, 3, 0⟩, 0, [], 0, ⟨[], false⟩) ∧
    yak_is_open (some ⟨none, 3, 0⟩) = true ∧ EFAULT ≠ 0 := by decide

/-- C3, counterexample: the header `T:22222222222222222222\n` declares a
length whose value exceeds the `long` range (`2 ^ 63 ≤` value), yet
`recv_message_info` returns success (status 0) with the wrapped, incorrect
length 3775478148512670606 — the `len < prev` guard misses this wrap, so the
decoder does not fail with EOVERFLOW on every over-range length field. -/
theorem C3_counterexample :
    (2 : Int) ^ 63 ≤ foldVal 0 (List.replicate 20 50) ∧
    recv_message_info ⟨84 :: 58 :: (List.replicate 20 50 ++ [10]), false⟩ =
      (0, ⟨3775478148512670606, 84⟩, ⟨[], false⟩) ∧
    (3775478148512670606 : Int) ≠ foldVal 0 (List.replicate 20 50) := by decide

/-- C8, counterexample: a clean early close after 1 header byte yields
EBADMSG, the very same code returned for a malformed 4-byte header (second
byte not `':'`), so the incomplete-message error is not distinct from the
malformed-message code. -/
theorem C8_counterexample :
    (recv_message_info ⟨[84], false⟩).1 = EBADMSG ∧
    (recv_message_info ⟨[84, 88, 48, 10], false⟩).1 = EBADMSG := by decide

/-- C4, counterexample: on the realistic environment where resolving the
empty host fails, `yak_connect` with host `""` and port 80 returns EACCES
(not EINVAL) after invoking name resolution (the flag is `true`), and
`yak_connect` with host `"localhost"` and port -1 also returns EACCES (not
EINVAL). -/
theorem C4_counterexample :
    (yak_connect envNone (some yak_init) (some []) 80).1 = EACCES ∧
    (yak_connect envNone (some yak_init) (some []) 80).2.2.1 = true ∧
    (yak_connect envNone (some yak_init)
      (some [108, 111, 99, 97, 108, 104, 111, 115, 116]) (-1)).1 = EACCES ∧
    EACCES ≠ EINVAL := by decide

/-- C1: round trip.  For every type byte `t` and every byte sequence `p`
(including the empty one, with `p` in the `long` range), `yak_send_message`
on an accepting peer puts exactly the bytes `wire t p` on the socket, and
feeding those bytes to the decoder — `recv_message_info` followed by
`recv_message_data`, and likewise the full `yak_recv_message` — succeeds and
returns exactly type `t` and payload `p`. -/
theorem C1_roundtrip (t : Nat) (p : List Nat) (c : yak_connection) (out : SockOut)
    (err : Bool) (hs : 0 ≤ c.sock) (hlen : (p.length : Int) < 2 ^ 63)
    (hcap : (wire t p).length ≤ out.cap) :
    yak_send_message (some c) t (some p) (p.length : Int) out =
      (0, some c, ⟨out.cap - (wire t p).length, out.err, out.sent ++ wire t p⟩) ∧
    recv_message_info ⟨wire t p, err⟩ = (0, ⟨(p.length : Int), t⟩, ⟨p ++ [10], err⟩) ∧
    recv_message_data ⟨p ++ [10], err⟩ (p.length : Int) = (0, p, ⟨[], err⟩) ∧
    yak_recv_message (some c) true ⟨wire t p, err⟩ =
      (0, some c, t, p, (p.length : Int), ⟨if p = [] then [10] else [], err⟩) := by
  have hinfo : recv_message_info ⟨wire t p, err⟩ =
      (0, ⟨(p.length : Int), t⟩, ⟨p ++ [10], err⟩) := by
    show recv_message_info ⟨t :: 58 :: (toDigits p.length ++ 10 :: (p ++ [10])), err⟩ = _
    exact recv_message_info_wire t p.length (p ++ [10]) err hlen
  have hdata : recv_message_data ⟨p ++ [10], err⟩ (p.length : Int) = (0, p, ⟨[], err⟩) := by
    have h := recv_message_data_exact p [] err
    simpa using h
  refine ⟨send_wire t p c out hs hlen hcap, hinfo, hdata, ?_⟩
  have h1 : ¬c.sock < 0 := by omega
  by_cases hp : p = []
  · subst hp
    simp only [yak_recv_message, hinfo, h1, if_false]
    norm_num
  · have hp2 : 0 < (p.length : Int) := by
      have hne : p.length ≠ 0 := fun h => hp (List.length_eq_zero.mp h)
      omega
    simp only [yak_recv_message, hinfo, h1, if_false, hdata]
    norm_num [hp2, hp]

/-- C5: bounded receive.  Whenever the incoming frame declares a length `n`
exceeding the caller-supplied bound `maxlen` (for instance 5 against 4),
`yak_recv_message_in_buffer` fails with EMSGSIZE, consumes only the header
(the payload bytes `rest` are still in the stream), and leaves the
connection in the closed state, on which `yak_is_open` is `false`. -/
theorem C5_bounded_receive (c : yak_connection) (t n : Nat) (maxlen : Int)
    (rest : List Nat) (err : Bool) (hs : 0 ≤ c.sock) (h0 : 0 ≤ maxlen)
    (hlt : maxlen < (n : Int)) (hn : (n : Int) < 2 ^ 63) :
    yak_recv_message_in_buffer (some c) true maxlen
        ⟨t :: 58 :: (toDigits n ++ 10 :: rest), err⟩ =
      (EMSGSIZE, some yak_init, 0, 0, [], ⟨rest, err⟩) := by
  have h1 : ¬c.sock < 0 := by omega
  have h2 : ¬maxlen < 0 := by omega
  have hinfo := recv_message_info_wire t n rest err hn
  simp only [yak_recv_message_in_buffer, h1, h2, if_false, hinfo]
  simp [hlt, yak_close]

/-- C7: malformed header.  For every incoming stream whose 4-byte prefix is
invalid — second byte not `':'` or third byte not an ASCII digit —
`recv_message_info` fails with EBADMSG consuming exactly those 4 bytes, and
`yak_recv_message_in_buffer` returns the same without entering the payload
reader: the stream still holds everything past the 4 header bytes. -/
theorem C7_malformed_header (b0 b1 b2 b3 : Nat) (rest : List Nat) (err : Bool)
    (c : yak_connection) (maxlen : Int) (hs : 0 ≤ c.sock) (hm : 0 ≤ maxlen)
    (hbad : b1 ≠ 58 ∨ b2 < 48 ∨ 57 < b2) :
    recv_message_info ⟨b0 :: b1 :: b2 :: b3 :: rest, err⟩ =
      (EBADMSG, ⟨0, 0⟩, ⟨rest, err⟩) ∧
    yak_recv_message_in_buffer (some c) true maxlen
        ⟨b0 :: b1 :: b2 :: b3 :: rest, err⟩ =
      (EBADMSG, some yak_init, 0, 0, [], ⟨rest, err⟩) := by
  have hinfo : recv_message_info ⟨b0 :: b1 :: b2 :: b3 :: rest, err⟩ =
      (EBADMSG, ⟨0, 0⟩, ⟨rest, err⟩) := by
    unfold recv_message_info
    rw [recv_data_four]
    rw [if_neg (show ¬((4 : Int) ≠ 4) by norm_num)]
    by_cases hb1 : b1 = 58
    · have hd : b2 < 48 ∨ 57 < b2 := hbad.resolve_left (by simp [hb1])
      rw [if_neg (show ¬(([b0, b1, b2, b3] : List Nat).getD 1 0 ≠ 58) by
        show ¬(b1 ≠ 58); simp [hb1])]
      rw [if_pos (show ([b0, b1, b2, b3] : List Nat).getD 2 0 < 48 ∨
        57 < ([b0, b1, b2, b3] : List Nat).getD 2 0 from hd)]
    · rw [if_pos (show ([b0, b1, b2, b3] : List Nat).getD 1 0 ≠ 58 from hb1)]
  refine ⟨hinfo, ?_⟩
  have h1 : ¬c.sock < 0 := by omega
  have h2 : ¬maxlen < 0 := by omega
  simp only [yak_recv_message_in_buffer, h1, h2, if_false, hinfo]
  simp [yak_close, EBADMSG]

theorem foldVal_zero_cons (l : List Nat) : foldVal 0 (48 :: l) = foldVal 0 l := by
  rw [foldVal_cons]
  norm_num

theorem foldVal_replicate_zero (j : Nat) (l : List Nat) :
    foldVal 0 (List.replicate j 48 ++ l) = foldVal 0 l := by
  induction j with
  | zero => simp
  | succ j ih => rw [List.replicate_succ, List.cons_append, foldVal_zero_cons, ih]

/-- C10: leading zeros accepted.  For every header whose length field is one
or more `'0'` bytes followed by any digit string `ds` of representable
value, `recv_message_info` succeeds and returns the numeric value of the
digit string (for example `T:007` yields 7), treating the header as
well-formed. -/
theorem C10_leading_zeros (t k : Nat) (ds rest : List Nat) (err : Bool)
    (hk : 0 < k) (hds : ∀ d ∈ ds, 48 ≤ d ∧ d ≤ 57) (hb : foldVal 0 ds < 2 ^ 63) :
    recv_message_info ⟨t :: 58 :: ((List.replicate k 48 ++ ds) ++ 10 :: rest), err⟩ =
      (0, ⟨foldVal 0 ds, t⟩, ⟨rest, err⟩) := by
  obtain ⟨j, rfl⟩ : ∃ j, k = j + 1 := ⟨k - 1, by omega⟩
  have hrep : List.replicate (j + 1) 48 ++ ds = 48 :: (List.replicate j 48 ++ ds) := by
    simp [List.replicate_succ]
  rw [hrep]
  have hmem : ∀ x ∈ List.replicate j 48 ++ ds, 48 ≤ x ∧ x ≤ 57 := by
    intro x hx
    rcases List.mem_append.mp hx with h | h
    · have := List.eq_of_mem_replicate h
      omega
    · exact hds x h
  have hfold : foldVal 0 (48 :: (List.replicate j 48 ++ ds)) = foldVal 0 ds := by
    rw [foldVal_zero_cons, foldVal_replicate_zero]
  have hshape : t :: 58 :: (48 :: (List.replicate j 48 ++ ds) ++ 10 :: rest) =
      t :: 58 :: 48 :: ((List.replicate j 48 ++ ds) ++ 10 :: rest) := by
    simp
  rw [hshape]
  rw [recv_message_info_digits t 48 (List.replicate j 48 ++ ds) rest err
    (by norm_num) (by norm_num) hmem (by rw [hfold]; exact hb)]
  rw [hfold]

/-- C8 (amended): a clean early close before the 4 header bytes arrive makes
the decoder fail with EBADMSG — distinct from the I/O-error code EIO, but
the very same code as for malformed messages, not a distinct
incomplete-message error — and the connection is closed. -/
theorem C8_amended_incomplete (pre : List Nat) (c : yak_connection) (maxlen : Int)
    (hs : 0 ≤ c.sock) (hm : 0 ≤ maxlen) (hlen : pre.length < 4) :
    (recv_message_info ⟨pre, false⟩).1 = EBADMSG ∧ EBADMSG ≠ EIO_ ∧
    yak_recv_message_in_buffer (some c) true maxlen ⟨pre, false⟩ =
      (EBADMSG, some yak_init, 0, 0, [], ⟨[], false⟩) := by
  have hinfo : recv_message_info ⟨pre, false⟩ = (EBADMSG, ⟨0, 0⟩, ⟨[], false⟩) := by
    unfold recv_message_info
    rw [recv_data_short pre 4 hlen]
    have hne : ((pre.length : Int)) ≠ 4 := by omega
    have hnlt : ¬((pre.length : Int)) < 0 := by omega
    simp [hne, hnlt]
  have h1 : ¬c.sock < 0 := by omega
  have h2 : ¬maxlen < 0 := by omega
  refine ⟨by rw [hinfo], by decide, ?_⟩
  simp only [yak_recv_message_in_buffer, h1, h2, if_false, hinfo]
  simp [yak_close, EBADMSG]

/-- C3 (amended): the digit-by-digit accumulation with the `len < prev`
check parses every length below `2 ^ 63` to its exact value, and fails with
EOVERFLOW when a step wraps below the previous value (as with nineteen
`'9'`s); but the check does not catch every over-range length — see the
counterexample with twenty `'2'`s. -/
theorem C3_amended_overflow :
    (∀ (t n : Nat) (rest : List Nat) (err : Bool), (n : Int) < 2 ^ 63 →
      recv_message_info ⟨t :: 58 :: (toDigits n ++ 10 :: rest), err⟩ =
        (0, ⟨(n : Int), t⟩, ⟨rest, err⟩)) ∧
    (recv_message_info ⟨84 :: 58 :: (List.replicate 19 57 ++ [10]), false⟩).1 =
      EOVERFLOW :=
  ⟨fun t n rest err hn => recv_message_info_wire t n rest err hn, by decide⟩

/-- C4 (amended): `yak_connect` with port -1 fails without name resolution
or socket creation, but with EACCES, not EINVAL (the EINVAL set by
`listaddrinfo` is discarded); `yak_connect` with the empty host string does
invoke name resolution (`getaddrinfo` is called, flag `true`) and, when it
fails, returns EACCES with no socket created. -/
theorem C4_amended_connect (env : NetEnv) (c : yak_connection) (h : List Nat)
    (hres : env.resolve [] 80 = none) :
    yak_connect env (some c) (some h) (-1) = (EACCES, some yak_init, false, 0) ∧
    yak_connect env (some c) (some []) 80 = (EACCES, some yak_init, true, 0) ∧
    EACCES ≠ EINVAL := by
  refine ⟨?_, ?_, by decide⟩
  · simp [yak_connect, listaddrinfo, connect_loop]
  · have hpi : (print_integer 8 80).isNone = false := by decide
    simp [yak_connect, listaddrinfo, connect_loop, hres, hpi]

theorem lsd_reverse_head :
    ∀ m : Nat, 0 < m → ∃ d L, (lsdDigits m).reverse = d :: L ∧ 48 < d ∧ d ≤ 57 := by
  intro m
  induction m using Nat.strong_induction_on with
  | _ m ih =>
    intro hm
    obtain ⟨s, rfl⟩ : ∃ s, m = s + 1 := ⟨m - 1, by omega⟩
    rw [lsdDigits_succ]
    by_cases h10 : (s + 1) / 10 = 0
    · rw [h10, lsdDigits_zero]
      refine ⟨48 + (s + 1) % 10, [], by simp, ?_, ?_⟩
      · have hlt : s + 1 < 10 := (Nat.div_eq_zero_iff (by norm_num)).mp h10
        have := Nat.mod_eq_of_lt hlt
        omega
      · have := Nat.mod_lt (s + 1) (show 0 < 10 by norm_num)
        omega
    · obtain ⟨d, L, hdl, hd1, hd2⟩ := ih ((s + 1) / 10)
        (Nat.div_lt_self (Nat.succ_pos s) (by norm_num)) (Nat.pos_of_ne_zero h10)
      refine ⟨d, L ++ [48 + (s + 1) % 10], ?_, hd1, hd2⟩
      rw [List.reverse_cons, hdl]
      simp

theorem toDigits_head_ne_zero (n : Nat) (h : 1 < (toDigits n).length) :
    (toDigits n).head? ≠ some 48 := by
  rw [toDigits_length] at h
  have hpos : 0 < n / 10 := by
    rcases Nat.eq_zero_or_pos (n / 10) with h0 | h0
    · rw [h0, lsdDigits_zero] at h
      simp at h
    · exact h0
  obtain ⟨d, L, hdl, hd1, hd2⟩ := lsd_reverse_head (n / 10) hpos
  rw [toDigits_eq_reverse_append, hdl]
  simp
  omega

/-- C6: exact encodings.  `('X', "ping")` is sent as the bytes of
`X:4\nping\n` and `('A', "")` as `A:0\n\n`; in general the wire form is the
type byte, `':'`, the decimal length, `'\n'`, the payload, and a trailing
`'\n'` sent even for length 0, where the length digits are `toDigits`
(value-faithful, `"0"` only for 0, no leading zero otherwise). -/
theorem C6_encoding :
    yak_send_message (some ⟨none, 3, 0⟩) 88 (some [112, 105, 110, 103]) 4
        ⟨100, false, []⟩ =
      (0, some ⟨none, 3, 0⟩,
        ⟨91, false, [88, 58, 52, 10, 112, 105, 110, 103, 10]⟩) ∧
    yak_send_message (some ⟨none, 3, 0⟩) 65 (some []) 0 ⟨100, false, []⟩ =
      (0, some ⟨none, 3, 0⟩, ⟨95, false, [65, 58, 48, 10, 10]⟩) ∧
    (∀ (t : Nat) (p : List Nat) (c : yak_connection) (out : SockOut),
      0 ≤ c.sock → (p.length : Int) < 2 ^ 63 → (wire t p).length ≤ out.cap →
      yak_send_message (some c) t (some p) (p.length : Int) out =
        (0, some c, ⟨out.cap - (wire t p).length, out.err, out.sent ++ wire t p⟩)) ∧
    (∀ (t : Nat) (p : List Nat),
      wire t p = (t :: 58 :: (toDigits p.length ++ 10 :: p)) ++ [10]) ∧
    toDigits 0 = [48] ∧
    (∀ n : Nat, foldVal 0 (toDigits n) = (n : Int)) ∧
    (∀ n : Nat, 1 < (toDigits n).length → (toDigits n).head? ≠ some 48) := by
  refine ⟨by decide, by decide, send_wire, ?_, by decide, foldVal_toDigits,
    toDigits_head_ne_zero⟩
  intro t p
  simp [wire]

/-- Witness for C1 at type 'X' and payload "ping". -/
theorem C1_witness :
    yak_recv_message (some ⟨none, 3, 0⟩) true ⟨wire 88 [112, 105, 110, 103], false⟩ =
      (0, some ⟨none, 3, 0⟩, 88, [112, 105, 110, 103],
        (([112, 105, 110, 103] : List Nat).length : Int),
        ⟨if ([112, 105, 110, 103] : List Nat) = [] then [10] else [], false⟩) :=
  (C1_roundtrip 88 [112, 105, 110, 103] ⟨none, 3, 0⟩ ⟨100, false, []⟩ false
    (by decide) (by decide) (by decide)).2.2.2

/-- Witness for C5 at declared length 5 against maxlen 4. -/
theorem C5_witness :
    yak_recv_message_in_buffer (some ⟨none, 3, 0⟩) true 4
        ⟨84 :: 58 :: (toDigits 5 ++ 10 :: [1, 2, 3, 4, 5, 10]), false⟩ =
      (EMSGSIZE, some yak_init, 0, 0, [], ⟨[1, 2, 3, 4, 5, 10], false⟩) :=
  C5_bounded_receive ⟨none, 3, 0⟩ 84 5 4 [1, 2, 3, 4, 5, 10] false
    (by decide) (by decide) (by decide) (by decide)

/-- Witness for the quantified parts of C6. -/
theorem C6_witness :
    yak_send_message (some ⟨some [104], 3, 80⟩) 90 (some [1, 2, 3])
        (([1, 2, 3] : List Nat).length : Int) ⟨50, true, [7]⟩ =
      (0, some ⟨some [104], 3, 80⟩,
        ⟨50 - (wire 90 [1, 2, 3]).length, true, [7] ++ wire 90 [1, 2, 3]⟩) ∧
    (toDigits 12).head? ≠ some 48 :=
  ⟨C6_encoding.2.2.1 90 [1, 2, 3] ⟨some [104], 3, 80⟩ ⟨50, true, [7]⟩
    (by decide) (by decide) (by decide),
   C6_encoding.2.2.2.2.2.2 12 (by decide)⟩

/-- Witness for C7 at a header with 'X' in place of ':'. -/
theorem C7_witness :
    recv_message_info ⟨84 :: 88 :: 48 :: 10 :: [], false⟩ =
      (EBADMSG, ⟨0, 0⟩, ⟨[], false⟩) ∧
    yak_recv_message_in_buffer (some ⟨none, 3, 0⟩) true 4
        ⟨84 :: 88 :: 48 :: 10 :: [], false⟩ =
      (EBADMSG, some yak_init, 0, 0, [], ⟨[], false⟩) :=
  C7_malformed_header 84 88 48 10 [] false ⟨none, 3, 0⟩ 4
    (by decide) (by decide) (by decide)

/-- Witness for C8 (amended) at a 1-byte prefix. -/
theorem C8_witness :
    (recv_message_info ⟨[84], false⟩).1 = EBADMSG ∧ EBADMSG ≠ EIO_ ∧
    yak_recv_message_in_buffer (some ⟨none, 3, 0⟩) true 0 ⟨[84], false⟩ =
      (EBADMSG, some yak_init, 0, 0, [], ⟨[], false⟩) :=
  C8_amended_incomplete [84] ⟨none, 3, 0⟩ 0 (by decide) (by decide) (by decide)

/-- Witness for C10 at the header T:007. -/
theorem C10_witness :
    recv_message_info ⟨84 :: 58 :: ((List.replicate 2 48 ++ [55]) ++ 10 :: []), false⟩ =
      (0, ⟨foldVal 0 [55], 84⟩, ⟨[], false⟩) ∧
    foldVal 0 [55] = 7 :=
  ⟨C10_leading_zeros 84 2 [55] [] false (by decide)
    (by intro d hd; simp at hd; omega) (by decide), by decide⟩

/-- Witness for the quantified part of C3 (amended). -/
theorem C3_witness :
    recv_message_info ⟨84 :: 58 :: (toDigits 5 ++ 10 :: []), false⟩ =
      (0, ⟨((5 : Nat) : Int), 84⟩, ⟨[], false⟩) :=
  C3_amended_overflow.1 84 5 [] false (by decide)

/-- Witness for C4 (amended) on the failing resolver. -/
theorem C4_witness :
    yak_connect envNone (some ⟨none, 3, 0⟩)
        (some [108, 111, 99, 97, 108, 104, 111, 115, 116]) (-1) =
      (EACCES, some yak_init, false, 0) ∧
    yak_connect envNone (some ⟨none, 3, 0⟩) (some []) 80 =
      (EACCES, some yak_init, true, 0) ∧
    EACCES ≠ EINVAL :=
  C4_amended_connect envNone ⟨none, 3, 0⟩
    [108, 111, 99, 97, 108, 104, 111, 115, 116] rfl
